import Mathlib

/-!
Verification development for the WhatsApp chat parser (`src/parser.js`).

Strings are modelled as `List Char` (`Str`).  JavaScript `Date` values are
modelled as `Option Int`: `some t` is a valid instant measured in seconds
since the Unix epoch, `none` is an Invalid Date (every comparison against it
is false, like a `NaN`-valued comparison).  `new Date()` — the current
wall-clock instant — is threaded through as an explicit `now : Int`
parameter, so parsing is a pure function of `(now, content, mediaFiles)`.

The regular expressions of the source are embedded through a small
backtracking matcher (`RE`, `reCore`): alternation is tried left to right,
quantifiers are greedy, and the search wrapper returns the leftmost match,
matching the semantics of the JavaScript regexes actually used (none of
which needs more exotic features).
-/

namespace WhatsAppParser

abbrev Str := List Char

/-! ## Character classes -/

/-- JavaScript `\s`: the WhiteSpace and LineTerminator code points. -/
def jsWhitespace (c : Char) : Bool :=
  c = ' ' ∨ c = '\t' ∨ c = '\n' ∨ c.val = 0xb ∨ c.val = 0xc ∨ c = '\r' ∨
  c.val = 0xa0 ∨ c.val = 0x1680 ∨ (0x2000 ≤ c.val ∧ c.val ≤ 0x200a) ∨
  c.val = 0x2028 ∨ c.val = 0x2029 ∨ c.val = 0x202f ∨ c.val = 0x205f ∨
  c.val = 0x3000 ∨ c.val = 0xfeff

/-- JavaScript `\d`. -/
def jsDigit (c : Char) : Bool := '0' ≤ c ∧ c ≤ '9'

/-- JavaScript `\w`: ASCII letters, digits and underscore. -/
def jsWordChar (c : Char) : Bool :=
  ('a' ≤ c ∧ c ≤ 'z') ∨ ('A' ≤ c ∧ c ≤ 'Z') ∨ jsDigit c ∨ c = '_'

/-- JavaScript `.` (without the `s` flag): anything but a line terminator. -/
def jsDot (c : Char) : Bool :=
  ¬ (c = '\n' ∨ c = '\r' ∨ c.val = 0x2028 ∨ c.val = 0x2029)

/-- Class of cleanText's first replacement
(U+200E, U+200F, U+200B to U+200D, U+2060 to U+206F, U+2028, U+2029, U+FEFF). -/
def isInvisibleMark (c : Char) : Bool :=
  c.val = 0x200e ∨ c.val = 0x200f ∨ (0x200b ≤ c.val ∧ c.val ≤ 0x200d) ∨
  (0x2060 ≤ c.val ∧ c.val ≤ 0x206f) ∨ c.val = 0x2028 ∨ c.val = 0x2029 ∨
  c.val = 0xfeff

/-- Class of the second replacement (U+00A0, U+202F, U+2007, U+2008, U+2009, U+200A),
each occurrence replaced by a plain space. -/
def isSpecialSpace (c : Char) : Bool :=
  c.val = 0xa0 ∨ c.val = 0x202f ∨ c.val = 0x2007 ∨ c.val = 0x2008 ∨
  c.val = 0x2009 ∨ c.val = 0x200a

/-- Class of the third replacement (U+202A to U+202E, U+2066 to U+2069). -/
def isBidiMark (c : Char) : Bool :=
  (0x202a ≤ c.val ∧ c.val ≤ 0x202e) ∨ (0x2066 ≤ c.val ∧ c.val ≤ 0x2069)

/-- ASCII-case-insensitive canonicalisation used for the `i` regex flag and
`toLowerCase`/`toUpperCase` (all relevant text is ASCII). -/
def lowerChar (c : Char) : Char := c.toLower

def toLowerStr (s : Str) : Str := s.map lowerChar

def toUpperStr (s : Str) : Str := s.map Char.toUpper

/-! ## Splitting, trimming, collapsing -/

/-- JavaScript `String.prototype.split` against a single-character-class separator:
`"".split` yields `[""]`, separators at the ends yield empty fragments. -/
def splitOnPred (p : Char → Bool) : Str → List Str
  | [] => [[]]
  | c :: rest =>
    match splitOnPred p rest with
    | [] => [[]]
    | g :: gs => if p c then [] :: g :: gs else (c :: g) :: gs

/-- JavaScript `String.prototype.trim`. -/
def jsTrim (s : Str) : Str :=
  ((s.dropWhile jsWhitespace).reverse.dropWhile jsWhitespace).reverse

/-- The replacement `replace(/  +/g, ' ')`: every maximal run of two or more plain spaces
becomes a single space (the last space of the run is kept). -/
def collapseSpaces : Str → Str
  | [] => []
  | [c] => [c]
  | a :: b :: rest =>
    if a = ' ' ∧ b = ' ' then collapseSpaces (b :: rest)
    else a :: collapseSpaces (b :: rest)

/-- Source `cleanText` (parser.js:31): strip invisible marks, normalise special
spaces, drop bidi controls and carriage returns, collapse space runs, trim.
The `if (!text) return ''` guard is the empty-string test; `undefined`
input is handled by `cleanTextOpt` below. -/
def cleanText (text : Str) : Str :=
  if text = [] then []
  else
    jsTrim (collapseSpaces
      ((((text.filter (fun c => ¬ isInvisibleMark c)).map
          (fun c => if isSpecialSpace c then ' ' else c)).filter
          (fun c => ¬ isBidiMark c)).filter (fun c => ¬ (c = '\r'))))

/-- Source `cleanText` on a possibly-`undefined` argument. -/
def cleanTextOpt : Option Str → Str
  | none => []
  | some s => cleanText s

/-! ## Regular-expression engine

A tiny backtracking matcher covering exactly the features the source's
regexes use: literal characters (case-sensitive or not), character
classes, sequencing, ordered alternation, greedy `?`, greedy class
repetition `{lo,hi}` (with `hi = none` for unbounded), and numbered
capture groups. -/

inductive RE where
  | eps : RE
  | chr : Char → RE
  | chrCI : Char → RE
  | cls : (Char → Bool) → RE
  | seq : RE → RE → RE
  | alt : RE → RE → RE
  | opt : RE → RE
  | repCls : (Char → Bool) → Nat → Option Nat → RE
  | group : Nat → RE → RE

abbrev Caps := List (Nat × Str)

def capGet (caps : Caps) (n : Nat) : Option Str := caps.lookup n

/-- CPS backtracking matcher.  `reCore r s caps k` tries to match `r` at the
head of `s` and passes the remaining input and captures to `k`; greedy
quantifiers try the longest candidate first, alternation the left branch
first, so the first success found is the JavaScript match. -/
def reCore : RE → Str → Caps → (Str → Caps → Option (Str × Caps)) → Option (Str × Caps)
  | .eps, s, caps, k => k s caps
  | .chr c, s, caps, k =>
    match s with
    | [] => none
    | x :: rest => if x = c then k rest caps else none
  | .chrCI c, s, caps, k =>
    match s with
    | [] => none
    | x :: rest => if lowerChar x = lowerChar c then k rest caps else none
  | .cls p, s, caps, k =>
    match s with
    | [] => none
    | x :: rest => if p x then k rest caps else none
  | .seq a b, s, caps, k => reCore a s caps (fun s' caps' => reCore b s' caps' k)
  | .alt a b, s, caps, k =>
    match reCore a s caps k with
    | some r => some r
    | none => reCore b s caps k
  | .opt a, s, caps, k =>
    match reCore a s caps k with
    | some r => some r
    | none => k s caps
  | .repCls p lo hi, s, caps, k =>
    let run := (s.takeWhile p).length
    let maxN := min run (hi.getD run)
    if maxN < lo then none
    else (List.range (maxN - lo + 1)).findSome? (fun i => k (s.drop (maxN - i)) caps)
  | .group n a, s, caps, k =>
    reCore a s caps (fun s' caps' => k s' ((n, s.take (s.length - s'.length)) :: caps'))

/-- Anchored match at the start of `s`; returns consumed length and captures. -/
def reMatchAt (r : RE) (s : Str) : Option (Nat × Caps) :=
  (reCore r s [] (fun rest caps => some (rest, caps))).map
    (fun rc => (s.length - rc.1.length, rc.2))

/-- Unanchored search: leftmost match, as `String.prototype.match` without
`g`.  Returns `(start, consumed, captures)`. -/
def reSearchAux (r : RE) : Str → Nat → Option (Nat × Nat × Caps)
  | s, pos =>
    match reMatchAt r s with
    | some (n, caps) => some (pos, n, caps)
    | none =>
      match s with
      | [] => none
      | _ :: t => reSearchAux r t (pos + 1)

def reSearch (r : RE) (s : Str) : Option (Nat × Nat × Caps) := reSearchAux r s 0

def reTest (r : RE) (s : Str) : Bool := (reSearch r s).isSome

/-- Global replacement (`replace(/…/g, repl)`): scanning resumes after each
match; the replacement text is not rescanned.  Structured with fuel
(initialised to the input length) because each step either consumes the
match or advances one character. -/
def reReplaceAllAux (r : RE) (repl : Str) : Nat → Str → Str
  | _, [] => []
  | 0, s => s
  | fuel + 1, c :: rest =>
    match reMatchAt r (c :: rest) with
    | some (n, _) =>
      if n = 0 then c :: reReplaceAllAux r repl fuel rest
      else repl ++ reReplaceAllAux r repl fuel ((c :: rest).drop n)
    | none => c :: reReplaceAllAux r repl fuel rest

def reReplaceAll (r : RE) (repl : Str) (s : Str) : Str :=
  reReplaceAllAux r repl s.length s

/-- Single replacement (`replace(/…/, repl)` without `g`). -/
def reReplaceFirst (r : RE) (repl : Str) (s : Str) : Str :=
  match reSearch r s with
  | some (start, n, _) => s.take start ++ repl ++ s.drop (start + n)
  | none => s

/-- Sequence a list of expressions. -/
def seqs (rs : List RE) : RE := rs.foldr RE.seq RE.eps

/-- Case-sensitive literal word. -/
def lits (s : String) : RE := seqs (s.data.map RE.chr)

/-- Case-insensitive literal word (the `i` flag; non-letters compare as
themselves). -/
def litsCI (s : String) : RE := seqs (s.data.map RE.chrCI)

def alts (rs : List RE) : RE := rs.foldr RE.alt (RE.cls (fun _ => false))

/-! ## The source's regular expressions -/

def wsStar : RE := .repCls jsWhitespace 0 none

/-- Fragment `(?:AM|PM|am|pm)` of the header patterns. -/
def ampmAlt : RE := alts [lits ("AM"), lits ("PM"), lits ("am"), lits ("pm")]

def isDateSep (c : Char) : Bool := c = '/' ∨ c = '.'

def notColon (c : Char) : Bool := ¬ (c = ':')

/-- Fragment `(\d{1,2}[\/.]\d{1,2}[\/.]\d{2,4})` — date group of the header patterns. -/
def dateGroupRE : RE :=
  .group 1 (seqs [.repCls jsDigit 1 (some 2), .cls isDateSep,
    .repCls jsDigit 1 (some 2), .cls isDateSep, .repCls jsDigit 2 (some 4)])

/-- Fragment `(\d{1,2}:\d{2}(?::\d{2})?\s*(?:AM|PM|am|pm)?)` — time group. -/
def timeGroupRE : RE :=
  .group 2 (seqs [.repCls jsDigit 1 (some 2), .chr ':', .repCls jsDigit 2 (some 2),
    .opt (seqs [.chr ':', .repCls jsDigit 2 (some 2)]), wsStar, .opt ampmAlt])

/-- parser.js:99
`/^\[(\d{1,2}[\/.]\d{1,2}[\/.]\d{2,4}),\s*(\d{1,2}:\d{2}(?::\d{2})?\s*(?:AM|PM|am|pm)?)\]\s*([^:]+):\s*(.*)/` -/
def bracketPattern : RE := seqs [
  .chr '[', dateGroupRE, .chr ',', wsStar, timeGroupRE, .chr ']', wsStar,
  .group 3 (.repCls notColon 1 none), .chr ':', wsStar,
  .group 4 (.repCls jsDot 0 none)]

/-- parser.js:102
`/^(\d{1,2}[\/.]\d{1,2}[\/.]\d{2,4}),\s*(\d{1,2}:\d{2}(?::\d{2})?\s*(?:AM|PM|am|pm)?)\s*-\s*([^:]+):\s*(.*)/` -/
def dashPattern : RE := seqs [
  dateGroupRE, .chr ',', wsStar, timeGroupRE, wsStar, .chr '-', wsStar,
  .group 3 (.repCls notColon 1 none), .chr ':', wsStar,
  .group 4 (.repCls jsDot 0 none)]

/-- parser.js:213 — bracketed system-message pattern (no `sender:` segment). -/
def sysBracketPattern : RE := seqs [
  .chr '[', dateGroupRE, .chr ',', wsStar, timeGroupRE, .chr ']', wsStar,
  .group 3 (.repCls jsDot 1 none)]

/-- parser.js:214 — dash system-message pattern. -/
def sysDashPattern : RE := seqs [
  dateGroupRE, .chr ',', wsStar, timeGroupRE, wsStar, .chr '-', wsStar,
  .group 3 (.repCls jsDot 1 none)]

/-- parser.js:61 `/^\[[\d\/]+,\s*[\d:]+\s*(?:AM|PM|am|pm)?\]/` -/
def detectBracketRE : RE := seqs [
  .chr '[', .repCls (fun c => jsDigit c ∨ c = '/') 1 none, .chr ',', wsStar,
  .repCls (fun c => jsDigit c ∨ c = ':') 1 none, wsStar, .opt ampmAlt, .chr ']']

/-- parser.js:63 `/^\[[\d\/]+,\s*\d{1,2}:\d{2}:\d{2}/` -/
def detectSecondsRE : RE := seqs [
  .chr '[', .repCls (fun c => jsDigit c ∨ c = '/') 1 none, .chr ',', wsStar,
  .repCls jsDigit 1 (some 2), .chr ':', .repCls jsDigit 2 (some 2), .chr ':',
  .repCls jsDigit 2 (some 2)]

/-- parser.js:72 `/^[\d\/\.]+,\s*[\d:]+\s*(?:AM|PM|am|pm)?\s*-\s*[^:]+:/` -/
def detectDashRE : RE := seqs [
  .repCls (fun c => jsDigit c ∨ c = '/' ∨ c = '.') 1 none, .chr ',', wsStar,
  .repCls (fun c => jsDigit c ∨ c = ':') 1 none, wsStar, .opt ampmAlt, wsStar,
  .chr '-', wsStar, .repCls notColon 1 none, .chr ':']

/-- parser.js:594 `/(\d{1,2}):(\d{2})(?::(\d{2}))?\s*(AM|PM|am|pm)?/` -/
def timeRE : RE := seqs [
  .group 1 (.repCls jsDigit 1 (some 2)), .chr ':',
  .group 2 (.repCls jsDigit 2 (some 2)),
  .opt (seqs [.chr ':', .group 3 (.repCls jsDigit 2 (some 2))]), wsStar,
  .opt (.group 4 ampmAlt)]

def notGt (c : Char) : Bool := ¬ (c = '>')

/-- parser.js:305 `/<\s*attached\s*:\s*([^>]+)>/i` -/
def attachRE : RE := seqs [
  .chr '<', wsStar, litsCI ("attached"), wsStar, .chr ':', wsStar,
  .group 1 (.repCls notGt 1 none), .chr '>']

/-- parser.js:330 (and 522) `/<\s*attached\s*:[^>]+>/gi` -/
def attachStripRE : RE := seqs [
  .chr '<', wsStar, litsCI ("attached"), wsStar, .chr ':',
  .repCls notGt 1 none, .chr '>']

/-- parser.js:335 (and 525) `/(?:image|video|audio|sticker|document|GIF)\s*omitted/i` -/
def omittedRE : RE := seqs [
  alts [litsCI ("image"), litsCI ("video"), litsCI ("audio"), litsCI ("sticker"),
    litsCI ("document"), litsCI ("GIF")], wsStar, litsCI ("omitted")]

def notBullet (c : Char) : Bool := ¬ (c = '•')

/-- parser.js:350 `/([^•]+\.pdf)\s*•\s*(\d+)\s*pages?\s*<\s*attached\s*:\s*([^>]+)>/i` -/
def pdfWithAttachRE : RE := seqs [
  .group 1 (seqs [.repCls notBullet 1 none, .chr '.', litsCI ("pdf")]), wsStar,
  .chr '•', wsStar, .group 2 (.repCls jsDigit 1 none), wsStar,
  litsCI ("page"), .opt (.chrCI 's'), wsStar,
  .chr '<', wsStar, litsCI ("attached"), wsStar, .chr ':', wsStar,
  .group 3 (.repCls notGt 1 none), .chr '>']

/-- parser.js:375
`/([^•]+\.(pdf|xlsx?|docx?|pptx?))\s*•\s*(\d+)\s*(pages?|sheets?)\s*(?:document\s*omitted)?/i` -/
def docRE : RE := seqs [
  .group 1 (seqs [.repCls notBullet 1 none, .chr '.',
    .group 2 (alts [litsCI ("pdf"), seqs [litsCI ("xls"), .opt (.chrCI 'x')],
      seqs [litsCI ("doc"), .opt (.chrCI 'x')], seqs [litsCI ("ppt"), .opt (.chrCI 'x')]])]),
  wsStar, .chr '•', wsStar, .group 3 (.repCls jsDigit 1 none), wsStar,
  .group 4 (alts [seqs [litsCI ("page"), .opt (.chrCI 's')],
    seqs [litsCI ("sheet"), .opt (.chrCI 's')]]), wsStar,
  .opt (seqs [litsCI ("document"), wsStar, litsCI ("omitted")])]

/-- parser.js:376 (and 526) `/•.*document\s*omitted/i` -/
def docOmittedRE : RE := seqs [
  .chr '•', .repCls jsDot 0 none, litsCI ("document"), wsStar, litsCI ("omitted")]

def voiceCallRE : RE := seqs [litsCI ("Voice"), wsStar, litsCI ("call")]
def videoCallRE : RE := seqs [litsCI ("Video"), wsStar, litsCI ("call")]
def groupCallRE : RE := seqs [litsCI ("Group"), wsStar, litsCI ("call")]

/-- parser.js:396 `/Voice\s*call|Video\s*call|Group\s*call/i` -/
def callTestRE : RE := alts [voiceCallRE, videoCallRE, groupCallRE]

/-- parser.js:399 `/(Voice\s*call|Video\s*call|Group\s*call)(?:,?\s*(.+))?/i` -/
def callMatchRE : RE := seqs [
  .group 1 (alts [voiceCallRE, videoCallRE, groupCallRE]),
  .opt (seqs [.opt (.chr ','), wsStar, .group 2 (.repCls jsDot 1 none)])]

/-- parser.js:417 `/Missed.*call|No\s*answer|Tap\s*to\s*call\s*back/i` -/
def missedTestRE : RE := alts [
  seqs [litsCI ("Missed"), .repCls jsDot 0 none, litsCI ("call")],
  seqs [litsCI ("No"), wsStar, litsCI ("answer")],
  seqs [litsCI ("Tap"), wsStar, litsCI ("to"), wsStar, litsCI ("call"), wsStar, litsCI ("back")]]

/-- parser.js:421 `/,?\s*Tap\s*to\s*call\s*back/i` -/
def tapBackRE : RE := seqs [
  .opt (.chr ','), wsStar, litsCI ("Tap"), wsStar, litsCI ("to"), wsStar,
  litsCI ("call"), wsStar, litsCI ("back")]

/-- parser.js:424 `/No\s*answer/i` -/
def noAnswerRE : RE := seqs [litsCI ("No"), wsStar, litsCI ("answer")]

/-- parser.js:425 `/(Voice\s*call|Video\s*call)/i` -/
def callTypeRE : RE := .group 1 (alts [voiceCallRE, videoCallRE])

/-- parser.js:434 `/This message was deleted|You deleted this message/i` -/
def deletedRE : RE :=
  alts [litsCI ("This message was deleted"), litsCI ("You deleted this message")]

/-- parser.js:441 `/Messages and calls are end-to-end encrypted/i` -/
def encryptedRE : RE := litsCI ("Messages and calls are end-to-end encrypted")

/-- parser.js:442 `/created group|added|left|removed|changed the subject|changed this group/i` -/
def groupMgmtRE : RE := alts [litsCI ("created group"), litsCI ("added"),
  litsCI ("left"), litsCI ("removed"), litsCI ("changed the subject"),
  litsCI ("changed this group")]

/-- parser.js:448 `/<This message was edited>/i` (and the `/gi` strip at 451) -/
def editedRE : RE := litsCI ("<This message was edited>")

/-- parser.js:487 `/(\d{5,}[-_](?:PHOTO|VIDEO|AUDIO|DOCUMENT|FILE)[-_\d]+\.\w+)/i` -/
def coreFilenameRE : RE := .group 1 (seqs [
  .repCls jsDigit 5 none, .cls (fun c => c = '-' ∨ c = '_'),
  alts [litsCI ("PHOTO"), litsCI ("VIDEO"), litsCI ("AUDIO"), litsCI ("DOCUMENT"), litsCI ("FILE")],
  .repCls (fun c => c = '-' ∨ c = '_' ∨ jsDigit c) 1 none,
  .chr '.', .repCls jsWordChar 1 none])

/-- parser.js:500 `/(\d{8,})/` -/
def numericRunRE : RE := .group 1 (.repCls jsDigit 8 none)

/-- Extract groups 1–4 of an anchored header match, as `line.match(pattern)`. -/
def matchGroups4 (r : RE) (s : Str) : Option (Str × Str × Str × Str) :=
  (reMatchAt r s).map (fun rc =>
    ((capGet rc.2 1).getD [], (capGet rc.2 2).getD [],
     (capGet rc.2 3).getD [], (capGet rc.2 4).getD []))

/-- Extract groups 1–3 of an anchored system-header match. -/
def matchGroups3 (r : RE) (s : Str) : Option (Str × Str × Str) :=
  (reMatchAt r s).map (fun rc =>
    ((capGet rc.2 1).getD [], (capGet rc.2 2).getD [], (capGet rc.2 3).getD []))

/-! ## Numbers and dates -/

def digitsToNat (ds : Str) : Nat :=
  ds.foldl (fun acc c => 10 * acc + (c.toNat - '0'.toNat)) 0

/-- JavaScript `parseInt(s, 10)`: skip whitespace, optional sign, leading decimal
digits; no digits ⇒ `NaN` (modelled as `none`). -/
def jsParseInt (s : Str) : Option Int :=
  let s₁ := s.dropWhile jsWhitespace
  let signAndRest : Bool × Str :=
    match s₁ with
    | '-' :: rest => (true, rest)
    | '+' :: rest => (false, rest)
    | _ => (false, s₁)
  let digits := signAndRest.2.takeWhile jsDigit
  if digits = [] then none
  else some ((if signAndRest.1 then -1 else 1) * (digitsToNat digits : Int))

/-- JavaScript number arithmetic where `none` is `NaN`. -/
def jsAdd (a : Option Int) (n : Int) : Option Int := a.map (· + n)

/-- Comparison `a < c` for a possibly-`NaN` left operand (false on `NaN`). -/
def jsLtC (a : Option Int) (c : Int) : Bool :=
  match a with
  | some x => x < c
  | none => false

/-- Comparison `a > c` for a possibly-`NaN` left operand (false on `NaN`). -/
def jsGtC (a : Option Int) (c : Int) : Bool :=
  match a with
  | some x => c < x
  | none => false

/-- Days since 1970-01-01 of the civil date `(y, m, d)`, `m ∈ 1..12`
(Howard Hinnant's `days_from_civil`, with floor division). -/
def daysFromCivil (y m d : Int) : Int :=
  let y' := if m ≤ 2 then y - 1 else y
  let era := y'.fdiv 400
  let yoe := y' - era * 400
  let mp := (m + 9).fmod 12
  let doy := (153 * mp + 2).fdiv 5 + d - 1
  let doe := yoe * 365 + yoe.fdiv 4 - yoe.fdiv 100 + doy
  era * 146097 + doe - 719468

/-- JavaScript `new Date(year, month, day, hours, minutes, seconds).getTime()` in
seconds: the 0–99 year is mapped to 1900+year, the 0-based month is
normalised into the year with floor division, and the remaining fields add
linearly (ECMAScript `MakeDay`/`MakeTime`). -/
def jsMakeDate (y mo d h mi s : Int) : Int :=
  let y₁ := if 0 ≤ y ∧ y ≤ 99 then y + 1900 else y
  let ym := y₁ + mo.fdiv 12
  let mn := mo.fmod 12
  (daysFromCivil ym (mn + 1) 1 + (d - 1)) * 86400 + h * 3600 + mi * 60 + s

/-- JavaScript `new Date(...)` with possibly-`NaN` arguments: any `NaN` argument gives
an Invalid Date. -/
def jsMakeDateN (y mo d h mi s : Option Int) : Option Int :=
  match y, mo, d, h, mi, s with
  | some y, some mo, some d, some h, some mi, some s =>
    some (jsMakeDate y mo d h mi s)
  | _, _, _, _, _, _ => none

/-- Comparison `Date < Date` on possibly-invalid dates: false when either side is
invalid (`NaN` comparison). -/
def dateLtOpt (a b : Option Int) : Bool :=
  match a, b with
  | some x, some y => x < y
  | _, _ => false

/-- Source `parseDateTime` (parser.js:556).  `now` models `new Date()`; the
`exportFormat` parameter is accepted but, as in the source, never read
(hence the underscore).  The `try`/`catch` is omitted: no step of the body
can throw. -/
def parseDateTime (now : Int) (dateStr timeStr : Str) (_exportFormat : Str) : Option Int :=
  let dateStr := cleanText dateStr
  let timeStr := cleanText timeStr
  let dateParts := (splitOnPred isDateSep dateStr).map jsParseInt
  match dateParts with
  | [first, second, year] =>
    let year := if jsLtC year 100 then jsAdd year (if jsLtC year 50 then 2000 else 1900) else year
    let md : Option Int × Option Int :=
      if jsGtC first 12 then (second, first)
      else if jsGtC second 12 then (first, second)
      else (first, second)
    let month := md.1
    let day := md.2
    match reSearch timeRE timeStr with
    | none => jsMakeDateN year (jsAdd month (-1)) day (some 0) (some 0) (some 0)
    | some (_, _, caps) =>
      let hours := jsParseInt ((capGet caps 1).getD [])
      let minutes := jsParseInt ((capGet caps 2).getD [])
      let seconds := match capGet caps 3 with
        | some g => jsParseInt g
        | none => some 0
      let period := capGet caps 4
      let hours := match period with
        | some p =>
          if toUpperStr p = "PM".data then
            (match hours with
             | some h => if h ≠ 12 then some (h + 12) else some h
             | none => none)
          else if toUpperStr p = "AM".data then
            (match hours with
             | some h => if h = 12 then some 0 else some h
             | none => none)
          else hours
        | none => hours
      jsMakeDateN year (jsAdd month (-1)) day hours minutes seconds
  | _ => some now

/-! ## Data model -/

/-- Caller-supplied filename → payload table (`Map` of parser.js, in
insertion order; payloads are the data-URL strings the app stores). -/
abbrev MediaMap := List (Str × Str)

structure QuotedMessage where
  timestamp : Option Int
  sender : Str
  text : Str
deriving DecidableEq, Inhabited, Repr

structure MediaInfo where
  filename : Option Str
  displayName : Option Str
  type : Str
  extension : Option Str
  data : Option Str
  hasData : Bool
  pages : Option Str
deriving DecidableEq, Inhabited, Repr

/-- A message record.  Fields the JavaScript object only acquires later
(`quotedMessage`, `hasQuote`, `isEdited`, the formatted display fields) get
the defaults that `undefined` reads as. -/
structure Message where
  id : Nat
  timestamp : Option Int
  sender : Str
  rawText : Str
  text : Str
  type : Str
  media : Option MediaInfo
  isSystem : Bool
  hasQuote : Bool := false
  quotedMessage : Option QuotedMessage := none
  isEdited : Bool := false
  formattedTime : Str := []
  formattedDate : Str := []
deriving DecidableEq, Inhabited, Repr

structure Participant where
  name : Str
  count : Nat
deriving DecidableEq, Inhabited, Repr

structure Stats where
  totalMessages : Nat
  mediaMessages : Nat
  participants : Nat
  firstDate : Option Int
  lastDate : Option Int
  dateRange : Str
deriving DecidableEq, Inhabited, Repr

structure ChatData where
  messages : List Message
  participants : List Participant
  stats : Stats
  exportFormat : Str
deriving DecidableEq, Inhabited, Repr

/-! ## Small helpers used by several components -/

/-- Lookup `mediaFiles.get(k)` / `mediaFiles.has(k)` on the insertion-ordered table. -/
def lookupAssoc (m : MediaMap) (k : Str) : Option Str :=
  (m.find? (fun kv => kv.1 = k)).map (·.2)

/-- Lookup `participants.get(k)` on the participant count map. -/
def mapGet (m : List (Str × Nat)) (k : Str) : Option Nat :=
  (m.find? (fun kv => kv.1 = k)).map (·.2)

/-- Update `participants.set(k, v)`: update in place if present, else append —
exactly the iteration-order behaviour of a JavaScript `Map`. -/
def mapSet (m : List (Str × Nat)) (k : Str) (v : Nat) : List (Str × Nat) :=
  match m with
  | [] => [(k, v)]
  | kv :: rest => if kv.1 = k then (k, v) :: rest else kv :: mapSet rest k v

/-! ## cleanMessageText, cleanSenderName, isSystemSender (parser.js:518–548) -/

def cleanMessageText (text : Str) : Str :=
  if text = [] then []
  else
    cleanText (reReplaceAll docOmittedRE []
      (reReplaceAll omittedRE [] (reReplaceAll attachStripRE [] text)))

def cleanSenderName (sender : Str) : Str :=
  if sender = [] then "Unknown".data
  else
    let s := jsTrim ((cleanText sender).dropWhile (fun c => c = '~'))
    if s = [] then "Unknown".data else s

/-- JavaScript `hay.includes(needle)` on strings. -/
def strIncludes (hay needle : Str) : Bool :=
  if needle.isPrefixOf hay then true
  else
    match hay with
    | [] => false
    | _ :: t => strIncludes t needle

def isSystemSender (sender : Str) : Bool :=
  let s := toLowerStr sender
  s = "system".data ∨ strIncludes s ("whatsapp").data

/-! ## getMediaType (parser.js:619) -/

def getMediaType (extension : Str) : Str :=
  let ext := toLowerStr extension
  if ext ∈ ["jpg".data, "jpeg".data, "png".data, "gif".data, "webp".data, "heic".data] then
    "image".data
  else if ext ∈ ["mp4".data, "mov".data, "avi".data, "3gp".data, "mkv".data] then
    "video".data
  else if ext ∈ ["mp3".data, "ogg".data, "opus".data, "m4a".data, "wav".data, "aac".data] then
    "audio".data
  else if ext ∈ ["pdf".data, "doc".data, "docx".data, "xls".data, "xlsx".data] then
    "document".data
  else "file".data

/-! ## findMediaFile (parser.js:462) -/

/-- The media resolver: exact key, then case-insensitive key, then
core-token substring (numeric id + category tag), then 8+-digit numeric
run substring; the console logging of the source is pure tracing and is
dropped. -/
def findMediaFile (filename : Str) (mediaFiles : MediaMap) : Option Str :=
  if filename = [] ∨ mediaFiles.length = 0 then none
  else
    match lookupAssoc mediaFiles filename with
    | some v => some v
    | none =>
      let filenameLower := toLowerStr filename
      match mediaFiles.find? (fun kv => toLowerStr kv.1 = filenameLower) with
      | some kv => some kv.2
      | none =>
        let coreResult : Option Str :=
          match reSearch coreFilenameRE filename with
          | some (_, _, caps) =>
            let coreFilename := (capGet caps 1).getD []
            (mediaFiles.find? (fun kv =>
              strIncludes kv.1 coreFilename ∨ strIncludes coreFilename kv.1)).map (·.2)
          | none => none
        match coreResult with
        | some v => some v
        | none =>
          match reSearch numericRunRE filename with
          | some (_, _, caps) =>
            (mediaFiles.find? (fun kv =>
              strIncludes kv.1 ((capGet caps 1).getD []))).map (·.2)
          | none => none

/-! ## finalizeMessage (parser.js:301) -/

def finalizeMessage (message : Message) (mediaFiles : MediaMap) : Message :=
  let text := message.rawText
  match reSearch attachRE text with
  | some (_, _, caps) =>
    let filename :=
      jsTrim ((cleanText ((capGet caps 1).getD [])).filter
        (fun c => jsWordChar c ∨ c = '.' ∨ c = '-' ∨ c = '_'))
    let extension := toLowerStr ((splitOnPred (fun c => c = '.') filename).getLastD [])
    let mediaData := findMediaFile filename mediaFiles
    let media : MediaInfo :=
      { filename := some filename, displayName := none,
        type := getMediaType extension, extension := some extension,
        data := mediaData, hasData := mediaData.isSome, pages := none }
    { message with
      media := some media, type := "media".data,
      text := jsTrim (reReplaceAll attachStripRE [] text) }
  | none =>
    if reTest omittedRE text then
      let media : MediaInfo :=
        { filename := none, displayName := none, type := "omitted".data,
          extension := none, data := none, hasData := false, pages := none }
      { message with media := some media, type := "media_omitted".data, text := [] }
    else
      match reSearch pdfWithAttachRE text with
      | some (_, _, caps) =>
        let displayName := jsTrim ((capGet caps 1).getD [])
        let pages := (capGet caps 2).getD []
        let actualFilename := cleanText ((capGet caps 3).getD [])
        let mediaData := findMediaFile actualFilename mediaFiles
        let media : MediaInfo :=
          { filename := some actualFilename, displayName := some displayName,
            type := "document".data, extension := some ("pdf").data,
            data := mediaData, hasData := mediaData.isSome, pages := some pages }
        { message with
          media := some media, type := "document".data,
          text := displayName ++ " • ".data ++ pages ++ " pages".data }
      | none =>
        let docMatch := reSearch docRE text
        if docMatch.isSome ∨ reTest docOmittedRE text then
          match docMatch with
          | some (_, _, caps) =>
            let filename := jsTrim ((capGet caps 1).getD [])
            let extension := toLowerStr ((capGet caps 2).getD [])
            let count := (capGet caps 3).getD []
            let countType := (capGet caps 4).getD []
            let media : MediaInfo :=
              { filename := some filename, displayName := none,
                type := "document".data, extension := some extension,
                data := none, hasData := false, pages := some count }
            { message with
              media := some media, type := "document_omitted".data,
              text := filename ++ " • ".data ++ count ++ " ".data ++ countType }
          | none =>
            let media : MediaInfo :=
              { filename := none, displayName := none, type := "document".data,
                extension := none, data := none, hasData := false, pages := none }
            { message with
              media := some media, type := "document_omitted".data,
              text := [] }
        else if reTest callTestRE text then
          match reSearch callMatchRE text with
          | some (_, _, caps) =>
            let callInfo := (capGet caps 1).getD []
            let callInfo :=
              match capGet caps 2 with
              | some g2 =>
                let details := cleanText g2
                if details ≠ [] then callInfo ++ ", ".data ++ details else callInfo
              | none => callInfo
            { message with type := "call".data, text := callInfo }
          | none => { message with type := "call".data, text := text }
        else if reTest missedTestRE text then
          let cleanedText := jsTrim (reReplaceFirst tapBackRE [] text)
          if reTest noAnswerRE cleanedText then
            let t := match reSearch callTypeRE cleanedText with
              | some (_, _, caps) => ((capGet caps 1).getD []) ++ " - No answer".data
              | none => "Call - No answer".data
            { message with type := "missed_call".data, text := t }
          else
            { message with
              type := "missed_call".data,
              text := if cleanedText = [] then "Missed call".data else cleanedText }
        else if reTest deletedRE text then
          { message with
            type := "deleted".data,
            text := "This message was deleted".data }
        else
          let message :=
            if reTest encryptedRE text ∨ reTest groupMgmtRE text then
              { message with isSystem := true, type := "system".data }
            else message
          if reTest editedRE text then
            { message with
              isEdited := true,
              text := cleanMessageText (jsTrim (reReplaceAll editedRE [] text)) }
          else
            { message with text := cleanMessageText text }

/-! ## cleanupMessages (parser.js:273) -/

def cleanupMessages (messages : List Message) : List Message :=
  messages.filter (fun msg =>
    msg.media.isSome ∨ msg.quotedMessage.isSome ∨
    (msg.text ≠ [] ∧ jsTrim msg.text ≠ []) ∨ msg.isSystem ∨
    msg.type = "call".data ∨ msg.type = "missed_call".data ∨
    msg.type = "deleted".data)

/-! ## detectFormat (parser.js:52) -/

/-- The replacement `content.replace(/\r\n/g, '\n')`. -/
def normalizeCrlf : Str → Str
  | '\r' :: '\n' :: rest => '\n' :: normalizeCrlf rest
  | c :: rest => c :: normalizeCrlf rest
  | [] => []

/-- The replacement `content.replace(/\r\n/g, '\n').replace(/\r/g, '\n')` (parser.js:90). -/
def normalizeNewlines : Str → Str
  | '\r' :: '\n' :: rest => '\n' :: normalizeNewlines rest
  | '\r' :: rest => '\n' :: normalizeNewlines rest
  | c :: rest => c :: normalizeNewlines rest
  | [] => []

/-- The `for (const rawLine of lines)` body of `detectFormat`: clean each
line, skip empties, test the bracket grammar (sub-classified by seconds)
before the dash grammar; fall off the end to the iOS default. -/
def detectLoop : List Str → Str
  | [] => "ios".data
  | rawLine :: rest =>
    let line := cleanText rawLine
    if line = [] then detectLoop rest
    else if (reMatchAt detectBracketRE line).isSome then
      if (reMatchAt detectSecondsRE line).isSome then "ios".data
      else "android-bracket".data
    else if (reMatchAt detectDashRE line).isSome then "android-dash".data
    else detectLoop rest

def detectFormat (content : Str) : Str :=
  detectLoop ((splitOnPred (fun c => c = '\n') (normalizeCrlf content)).take 20)

/-! ## Display formatting (parser.js:633–698)

`toLocaleTimeString`/`toLocaleDateString` with the `'en-US'` options used
by the source; the locale separator between time and meridiem is modelled
as a plain space. -/

/-- Inverse of `daysFromCivil` (Hinnant's `civil_from_days`). -/
def civilFromDays (z : Int) : Int × Int × Int :=
  let z' := z + 719468
  let era := z'.fdiv 146097
  let doe := z' - era * 146097
  let yoe := (doe - doe.fdiv 1460 + doe.fdiv 36524 - doe.fdiv 146096).fdiv 365
  let y := yoe + era * 400
  let doy := doe - (365 * yoe + yoe.fdiv 4 - yoe.fdiv 100)
  let mp := (5 * doy + 2).fdiv 153
  let d := doy - (153 * mp + 2).fdiv 5 + 1
  let m := mp + (if mp < 10 then 3 else -9)
  (if m ≤ 2 then y + 1 else y, m, d)

def natDigits (n : Nat) : Str := Nat.toDigits 10 n

def intToStr (i : Int) : Str :=
  if i < 0 then '-' :: natDigits i.natAbs else natDigits i.natAbs

/-- Padding for `minute: '2-digit'`. -/
def pad2 (i : Int) : Str :=
  if i < 10 then '0' :: natDigits i.natAbs else natDigits i.natAbs

def monthLongNames : List String :=
  ["January", "February", "March", "April", "May", "June", "July",
   "August", "September", "October", "November", "December"]

def monthShortNames : List String :=
  ["Jan", "Feb", "Mar", "Apr", "May", "Jun", "Jul", "Aug", "Sep", "Oct",
   "Nov", "Dec"]

def weekdayNames : List String :=
  ["Sunday", "Monday", "Tuesday", "Wednesday", "Thursday", "Friday",
   "Saturday"]

def monthLong (m : Int) : Str := ((monthLongNames.getD (m - 1).toNat ("")).data)

def monthShort (m : Int) : Str := ((monthShortNames.getD (m - 1).toNat ("")).data)

/-- Source `formatTime` (parser.js:633): `h:mm AM/PM`; an invalid date yields `''`. -/
def formatTime (date : Option Int) : Str :=
  match date with
  | none => []
  | some ts =>
    let sod := ts.fmod 86400
    let h := sod.fdiv 3600
    let mi := (sod.fmod 3600).fdiv 60
    let h12 := if h.fmod 12 = 0 then 12 else h.fmod 12
    intToStr h12 ++ ":".data ++ pad2 mi ++
      (if h < 12 then " AM".data else " PM".data)

/-- Source `formatDate` (parser.js:645): `Today`/`Yesterday` against the render-time
clock, else long weekday/month/day with the year only when it differs from
the current year. -/
def formatDate (now : Int) (date : Option Int) : Str :=
  match date with
  | none => []
  | some ts =>
    let z := ts.fdiv 86400
    let todayZ := now.fdiv 86400
    if z = todayZ then "Today".data
    else if z = todayZ - 1 then "Yesterday".data
    else
      let c := civilFromDays z
      let wd := ((z.fmod 7 + 4).fmod 7).toNat
      ((weekdayNames.getD wd ("")).data) ++ ", ".data ++ monthLong c.2.1 ++
        " ".data ++ intToStr c.2.2 ++
        (if c.1 ≠ (civilFromDays todayZ).1 then ", ".data ++ intToStr c.1 else [])

/-- Source `formatDateRange` (parser.js:692): `'-'` when either end is missing;
`Mon D, YYYY` short dates, collapsed when equal. -/
def formatDateRange (start stop : Option Int) : Str :=
  match start, stop with
  | some s, some e =>
    let fmt := fun (ts : Int) =>
      let c := civilFromDays (ts.fdiv 86400)
      monthShort c.2.1 ++ " ".data ++ intToStr c.2.2 ++ ", ".data ++ intToStr c.1
    let startStr := fmt s
    let endStr := fmt e
    if startStr = endStr then startStr else startStr ++ " - ".data ++ endStr
  | _, _ => "-".data

/-! ## calculateStats (parser.js:666) -/

/-- Stable insertion sort — extensionally the ascending stable
`Array.prototype.sort((a, b) => a - b)` of the source. -/
def insertAsc (a : Int) : List Int → List Int
  | [] => [a]
  | b :: bs => if a < b then a :: b :: bs else b :: insertAsc a bs

def sortAsc : List Int → List Int
  | [] => []
  | a :: rest => insertAsc a (sortAsc rest)

def calculateStats (messages : List Message) (participants : List (Str × Nat)) : Stats :=
  let mediaMessages := messages.filter (fun m =>
    m.type = "media".data ∨ m.type = "media_omitted".data ∨
    m.type = "document_omitted".data)
  let dates := sortAsc (messages.filterMap (fun m => m.timestamp))
  let firstDate := dates.head?
  let lastDate := dates.getLast?
  { totalMessages := messages.length, mediaMessages := mediaMessages.length,
    participants := participants.length, firstDate, lastDate,
    dateRange := formatDateRange firstDate lastDate }

/-! ## The boundary scanner and parse (parser.js:88) -/

structure ScanState where
  messages : List Message
  participants : List (Str × Nat)
  currentMessage : Option Message
  lastTimestamp : Option Int
deriving DecidableEq, Inhabited, Repr

/-- A freshly opened message (the object literal at parser.js:189). -/
def openMessage (id : Nat) (timestamp : Option Int) (sender rawText : Str) : Message :=
  { id, timestamp, sender, rawText, text := [], type := "text".data,
    media := none, isSystem := false, hasQuote := false }

/-- The ordinary header-open path (parser.js:146–201): the lookahead
quote-container branch, else close/push any open message, count the
participant, open a new message. -/
def scanHeaderOpen (messagePattern : RE) (now : Int) (mediaFiles : MediaMap)
    (nextRawLine : Str) (st : ScanState)
    (timestamp : Option Int) (cleanSender text : Str) : ScanState :=
  let container : Option ScanState :=
    if jsTrim text = [] ∧ st.currentMessage.isSome then
      let nextLine := cleanText nextRawLine
      match matchGroups4 messagePattern nextLine with
      | some (nd, nt, _, _) =>
        let nextTimestamp := parseDateTime now nd nt []
        if dateLtOpt nextTimestamp timestamp then
          let messages :=
            match st.currentMessage with
            | some cur => st.messages ++ [finalizeMessage cur mediaFiles]
            | none => st.messages
          some { messages,
                 participants := st.participants,
                 currentMessage := some (openMessage messages.length timestamp cleanSender []),
                 lastTimestamp := timestamp }
        else none
      | none => none
    else none
  match container with
  | some st' => st'
  | none =>
    let messages :=
      match st.currentMessage with
      | some cur => st.messages ++ [finalizeMessage cur mediaFiles]
      | none => st.messages
    let participants :=
      if isSystemSender cleanSender then st.participants
      else mapSet st.participants cleanSender ((mapGet st.participants cleanSender).getD 0 + 1)
    { messages, participants,
      currentMessage := some (openMessage messages.length timestamp cleanSender text),
      lastTimestamp := timestamp }

/-- One iteration of the scanner loop (parser.js:110–239) on the cleaned
line, with the raw next line available for the one-line lookahead. -/
def scanStep (messagePattern sysPattern : RE) (now : Int) (mediaFiles : MediaMap)
    (rawLine nextRawLine : Str) (st : ScanState) : ScanState :=
  let line := cleanText rawLine
  if line = [] then st
  else
    match matchGroups4 messagePattern line with
    | some (dateStr, timeStr, sender, text) =>
      let timestamp := parseDateTime now dateStr timeStr []
      let cleanSender := cleanSenderName sender
      let isQuotedMessage : Bool :=
        match st.lastTimestamp, st.currentMessage with
        | some lastTs, some cur =>
          dateLtOpt timestamp (some lastTs) ∧
            (cur.rawText = [] ∨ jsTrim cur.rawText = [])
        | _, _ => false
      if isQuotedMessage then
        match st.currentMessage with
        | some cur =>
          let cur' :=
            { cur with
              quotedMessage := some ⟨timestamp, cleanSender, text⟩,
              rawText := [], hasQuote := true }
          { st with currentMessage := some cur' }
        | none => st
      else
        scanHeaderOpen messagePattern now mediaFiles nextRawLine st timestamp cleanSender text
    | none =>
      match st.currentMessage with
      | some cur =>
        if cur.hasQuote ∧ cur.rawText = [] then
          { st with currentMessage := some { cur with rawText := line } }
        else
          { st with currentMessage := some { cur with rawText := cur.rawText ++ '\n' :: line } }
      | none =>
        match matchGroups3 sysPattern line with
        | some (dateStr, timeStr, text) =>
          let messages :=
            match st.currentMessage with
            | some cur => st.messages ++ [finalizeMessage cur mediaFiles]
            | none => st.messages
          let timestamp := parseDateTime now dateStr timeStr []
          let sysMsg : Message :=
            { id := messages.length, timestamp, sender := "System".data,
              rawText := text, text := [], type := "system".data,
              media := none, isSystem := true }
          { st with
            messages, currentMessage := some sysMsg,
            lastTimestamp := timestamp }
        | none => st

/-- The scanner loop over all raw lines, threading the state and exposing
`rawLines[i + 1]` to each step. -/
def scanLines (messagePattern sysPattern : RE) (now : Int) (mediaFiles : MediaMap) :
    List Str → ScanState → ScanState
  | [], st => st
  | raw :: rest, st =>
    scanLines messagePattern sysPattern now mediaFiles rest
      (scanStep messagePattern sysPattern now mediaFiles raw (rest.headD []) st)

def messagePatternFor (exportFormat : Str) : RE :=
  if exportFormat = "android-dash".data then dashPattern else bracketPattern

def sysPatternFor (exportFormat : Str) : RE :=
  if exportFormat = "android-dash".data then sysDashPattern else sysBracketPattern

/-- The message list of `parse` before the cleanup filter: the scan of all
lines followed by the final push of any still-open message (parser.js:242). -/
def parseRawMessages (now : Int) (content : Str) (mediaFiles : MediaMap) : ScanState :=
  let rawLines := splitOnPred (fun c => c = '\n') (normalizeNewlines content)
  let exportFormat := detectFormat content
  let st := scanLines (messagePatternFor exportFormat) (sysPatternFor exportFormat)
    now mediaFiles rawLines ⟨[], [], none, none⟩
  match st.currentMessage with
  | some cur =>
    { st with
      messages := st.messages ++ [finalizeMessage cur mediaFiles],
      currentMessage := none }
  | none => st

/-- Stable insertion sort by descending count — extensionally the stable
`sort((a, b) => b.count - a.count)` of the source. -/
def insertByCountDesc (p : Participant) : List Participant → List Participant
  | [] => [p]
  | q :: qs => if q.count < p.count then p :: q :: qs else q :: insertByCountDesc p qs

def sortByCountDesc : List Participant → List Participant
  | [] => []
  | p :: rest => insertByCountDesc p (sortByCountDesc rest)

/-- Source `parse` (parser.js:88): scan, cleanup, attach display fields, compute
stats, return the `ChatData` value. -/
def parse (now : Int) (content : Str) (mediaFiles : MediaMap) : ChatData :=
  let st := parseRawMessages now content mediaFiles
  let cleanedMessages := cleanupMessages st.messages
  let processedMessages := cleanedMessages.map (fun msg =>
    { msg with
      formattedTime := formatTime msg.timestamp,
      formattedDate := formatDate now msg.timestamp })
  let stats := calculateStats processedMessages st.participants
  { messages := processedMessages,
    participants := sortByCountDesc (st.participants.map (fun kv => ⟨kv.1, kv.2⟩)),
    stats,
    exportFormat := detectFormat content }

/-! ## Specification-side definitions

Definitions in this section follow the wording of the specification (not
the source); they exist to be compared against the source-derived
definitions above. -/

/-- The specification's detection loop over a window of already-normalized
lines: bracket grammar before dash grammar, bracket matches sub-classified
by the seconds field, first matching line wins, `BracketedWithSeconds`
(`'ios'`) when the window is exhausted. -/
def detectScan : List Str → Str
  | [] => "ios".data
  | line :: rest =>
    if (reMatchAt detectBracketRE line).isSome then
      if (reMatchAt detectSecondsRE line).isSome then "ios".data
      else "android-bracket".data
    else if (reMatchAt detectDashRE line).isSome then "android-dash".data
    else detectScan rest

/-- The claim's window: the first 20 *non-empty normalized* lines of the
whole input. -/
def detectFormatClaimWindow (content : Str) : Str :=
  detectScan ((((splitOnPred (fun c => c = '\n') (normalizeCrlf content)).map
    cleanText).filter (fun l => ¬ (l = []))).take 20)

/-- The window the source actually uses: the non-empty normalized lines
found among the first 20 *raw* lines. -/
def detectFormatRawWindow (content : Str) : Str :=
  detectScan ((((splitOnPred (fun c => c = '\n') (normalizeCrlf content)).take
    20).map cleanText).filter (fun l => ¬ (l = [])))

/-- First successful strategy of a cascade (a final strategy's result is
returned as-is; earlier ones are consulted in order). -/
def firstSome : List (Option Str) → Option Str
  | [] => none
  | [o] => o
  | o :: rest =>
    match o with
    | some v => some v
    | none => firstSome rest

/-- The specification's media-resolution cascade: exact key, then
case-insensitive key, then core-token substring, then 8+-digit-run
substring; the first successful strategy's payload wins. -/
def findMediaFileSpec (filename : Str) (mediaFiles : MediaMap) : Option Str :=
  firstSome
    [lookupAssoc mediaFiles filename,
     (mediaFiles.find? (fun kv => toLowerStr kv.1 = toLowerStr filename)).map (·.2),
     (match reSearch coreFilenameRE filename with
      | some (_, _, caps) =>
        (mediaFiles.find? (fun kv =>
          strIncludes kv.1 ((capGet caps 1).getD []) ∨
          strIncludes ((capGet caps 1).getD []) kv.1)).map (·.2)
      | none => none),
     (match reSearch numericRunRE filename with
      | some (_, _, caps) =>
        (mediaFiles.find? (fun kv =>
          strIncludes kv.1 ((capGet caps 1).getD []))).map (·.2)
      | none => none)]

/-- The participant table after one scanner step, written per the amended
claim: a header counted only when it is consumed by the ordinary open path
(not the quote merge, not the quote-container lookahead open) and its
sender is not a system sender. -/
def participantsAfterStep (messagePattern : RE) (now : Int)
    (rawLine nextRawLine : Str) (st : ScanState) : List (Str × Nat) :=
  let line := cleanText rawLine
  if line = [] then st.participants
  else
  match matchGroups4 messagePattern line with
  | none => st.participants
  | some (dateStr, timeStr, sender, text) =>
    let timestamp := parseDateTime now dateStr timeStr []
    let cleanSender := cleanSenderName sender
    let mergedAsQuote : Bool :=
      match st.lastTimestamp, st.currentMessage with
      | some lastTs, some cur =>
        dateLtOpt timestamp (some lastTs) ∧
          (cur.rawText = [] ∨ jsTrim cur.rawText = [])
      | _, _ => false
    let openedAsQuoteContainer : Bool :=
      (decide (jsTrim text = [])) && st.currentMessage.isSome &&
        (match matchGroups4 messagePattern (cleanText nextRawLine) with
         | some (nd, nt, _, _) => dateLtOpt (parseDateTime now nd nt []) timestamp
         | none => false)
    if mergedAsQuote ∨ openedAsQuoteContainer ∨ isSystemSender cleanSender then
      st.participants
    else
      mapSet st.participants cleanSender
        ((mapGet st.participants cleanSender).getD 0 + 1)

/-! ## Concrete inputs used by the claims -/

/-- The quote-merge input of claim C4 (spec §8). -/
def c4Input : Str := ("[1/2/24, 10:00:00 AM] Alice: \n[1/2/24, 09:59:00 AM] Bob: Hi").data

/-- An empty-text header followed by an ordinary one: the first message is
discarded by the cleanup filter, so the returned ids start at 1. -/
def c1Input : Str := ("[1/2/24, 10:00:00 AM] Alice:\n[1/2/24, 10:01:00 AM] Bob: Hi").data

/-- Raw text carrying both the `NAME.pdf • N pages` prefix and the
attachment marker. -/
def c2Text : Str := ("report.pdf • 3 pages <attached: 00000042-DOCUMENT-2024.pdf>").data

/-- Twenty empty lines followed by a dash-format header: the dash header is
the first non-empty normalized line but sits outside the raw-line window. -/
def c6Input : Str := List.replicate 20 '\n' ++ ("1/2/2024, 10:00 - Alice: hi").data

/-- A non-empty input with no recognizable message line. -/
def c8Input : Str := ("hello world").data

/-- A message from A, then an empty-text header from B whose lookahead sees
an earlier header from C: B's header opens a message through the
quote-container path and C's is merged as a quote. -/
def c10Input : Str :=
  ("[1/2/24, 10:00:00 AM] A: x\n[1/2/24, 10:01:00 AM] B:\n[1/2/24, 09:59:00 AM] C: q").data

/-! ## Proof-support definitions -/

/-- The scanner's id discipline: pushed messages carry their position as
id, and an open message carries the position it will be pushed at. -/
def IdInv (st : ScanState) : Prop :=
  st.messages.map (fun m => m.id) = List.range st.messages.length ∧
  ∀ cur, st.currentMessage = some cur → cur.id = st.messages.length

/-- No two adjacent plain spaces (the post-condition of `collapseSpaces`). -/
def nds : Str → Bool
  | [] => true
  | [_] => true
  | a :: b :: rest => if a = ' ' ∧ b = ' ' then false else nds (b :: rest)

/-! # Theorems -/

set_option maxRecDepth 100000

/-- C1, counterexample.  On `c1Input` Alice's empty message is discarded by
the cleanup filter, so the returned sequence is `[Bob's message]` whose id
is 1: the position-matching half of the claim (`messages[i].id == i` after
cleanup) is false. -/
theorem c1_ids_counterexample :
    ((parse 0 c1Input []).messages.map (fun m => m.id) = [1]) ∧
    ¬ (∀ i, ∀ h : i < (parse 0 c1Input []).messages.length,
        ((parse 0 c1Input []).messages.get ⟨i, h⟩).id = i) := by
  refine ⟨by decide, fun h => ?_⟩
  exact absurd (h 0 (by decide)) (by decide)

/-- C2: the raw text of `c2Text` carries both a leading
`report.pdf • 3 pages` prefix and an attachment marker (the document
pattern of parser.js:350 does match it), yet the classifier assigns kind
`media` — not `document` — with no page count and no display name, because
the plain attachment branch at parser.js:305 returns first and the
document-with-attachment branch is unreachable, contradicting the comment
documenting that branch. -/
theorem c2_pdf_attachment_misclassified :
    (reSearch pdfWithAttachRE c2Text).isSome = true ∧
    (finalizeMessage (openMessage 0 (some 0) "Alice".data c2Text) []).type = "media".data ∧
    ((finalizeMessage (openMessage 0 (some 0) "Alice".data c2Text) []).media.map
      (fun m => m.pages)) = some none ∧
    ((finalizeMessage (openMessage 0 (some 0) "Alice".data c2Text) []).media.map
      (fun m => m.displayName)) = some none := by
  decide

/-- C3, counterexample.  With a well-formed date token and a malformed time
token the resolver returns the parsed date at midnight
(`1704153600` = 2024-01-02 00:00:00), not the current instant `12345`. -/
theorem c3_malformed_time_counterexample :
    parseDateTime 12345 ("1/2/24").data ("zz").data [] = some 1704153600 ∧
    (1704153600 : Int) ≠ 12345 := by
  decide

/-- C4: the two-header quote-merge input produces exactly one message, from
Alice, with `hasQuote` and the quoted `{timestamp, sender, text}` taken
from Bob's earlier-stamped header (`1704189540` = 2024-01-02 09:59:00). -/
theorem c4_quote_merge :
    (parse 0 c4Input []).messages.length = 1 ∧
    ((parse 0 c4Input []).messages.headD default).sender = "Alice".data ∧
    ((parse 0 c4Input []).messages.headD default).hasQuote = true ∧
    ((parse 0 c4Input []).messages.headD default).quotedMessage =
      some ⟨some 1704189540, "Bob".data, "Hi".data⟩ := by
  decide

/-- C6, counterexample.  `c6Input` starts with twenty empty lines; its
first non-empty normalized line is a dash header, so a detector examining
"the first 20 non-empty normalized lines" would answer `android-dash`, but
the source windows the first 20 raw lines and falls back to `ios`. -/
theorem c6_window_counterexample :
    detectFormat c6Input = "ios".data ∧
    detectFormatClaimWindow c6Input = "android-dash".data := by
  decide

/-- C8, counterexample.  A non-empty input in which no line is recognized
does not propagate any failure: `parse` returns the same empty `ChatData`
shape (no messages, no participants, placeholder date range) that the
claim reserves for completely empty input. -/
theorem c8_no_failure_counterexample :
    c8Input ≠ [] ∧
    (parse 0 c8Input []).messages = [] ∧
    (parse 0 c8Input []).participants = [] ∧
    (parse 0 c8Input []).stats.dateRange = "-".data := by
  decide

/-- C10, counterexample.  On `c10Input` a message with sender `B` is
opened (it appears in the output), but B's header was consumed by the
quote-container lookahead path, which does not touch the participant
table: the claim that `messageCount` equals the number of headers opened
with that sender fails (B has no entry at all). -/
theorem c10_container_open_not_counted :
    (parse 0 c10Input []).messages.map (fun m => m.sender) = ["A".data, "B".data] ∧
    (parse 0 c10Input []).participants.map (fun p => (p.name, p.count)) =
      [("A".data, 1)] := by
  decide

/-- The source's detection loop over a window equals the first-match scan
over the cleaned, non-empty lines of that window. -/
theorem detectLoop_eq_detectScan (ls : List Str) :
    detectLoop ls = detectScan ((ls.map cleanText).filter (fun l => ¬ (l = []))) := by
  induction ls with
  | nil => rfl
  | cons raw rest ih =>
    by_cases h : cleanText raw = []
    · simp [detectLoop, h, ih]
    · simp [detectLoop, h, detectScan, ih]

/-- C6, amended: the detector's window is the first 20 *raw* lines; within
it, empties are skipped, the bracket grammar is tested before the dash
grammar, a bracket match is sub-classified by its seconds field, the first
matching line decides, and an exhausted window defaults to `'ios'`
(`BracketedWithSeconds`) — that is, `detectFormat` agrees everywhere with
the first-match scan over the non-empty normalized lines among the first
20 raw lines. -/
theorem c6_raw_window_amended (content : Str) :
    detectFormat content = detectFormatRawWindow content := by
  unfold detectFormat detectFormatRawWindow
  exact detectLoop_eq_detectScan _

/-- C10, amended: one scanner step changes the participant table exactly as
the amended counting rule says (ordinary opens of non-system senders
increment; quote merges, quote-container opens, system headers and
non-header lines do not), and the returned participants are the scan-final
counts, untouched by the cleanup filter. -/
theorem c10_participants_amended (messagePattern sysPattern : RE) (now : Int)
    (mediaFiles : MediaMap) (rawLine nextRawLine : Str) (st : ScanState)
    (content : Str) :
    (scanStep messagePattern sysPattern now mediaFiles rawLine nextRawLine st).participants =
      participantsAfterStep messagePattern now rawLine nextRawLine st ∧
    (parse now content mediaFiles).participants =
      sortByCountDesc ((parseRawMessages now content mediaFiles).participants.map
        (fun kv => ⟨kv.1, kv.2⟩)) := by
  refine ⟨?_, rfl⟩
  unfold scanStep participantsAfterStep scanHeaderOpen
  by_cases hline : cleanText rawLine = []
  · simp [hline]
  · simp only [if_neg hline]
    cases hmatch : matchGroups4 messagePattern (cleanText rawLine) with
    | none =>
      cases hcur : st.currentMessage with
      | some cur =>
        by_cases hq : cur.hasQuote ∧ cur.rawText = [] <;> simp [hq]
      | none =>
        cases hsys : matchGroups3 sysPattern (cleanText rawLine) <;> simp
    | some quad =>
      obtain ⟨d, t, s, x⟩ := quad
      cases hlast : st.lastTimestamp with
      | none =>
        cases hcur : st.currentMessage with
        | none =>
          by_cases hs : isSystemSender (cleanSenderName s) = true <;> simp [hcur, hs]
        | some cur =>
          by_cases hx : jsTrim x = []
          · cases hnext : matchGroups4 messagePattern (cleanText nextRawLine) with
            | none =>
              by_cases hs : isSystemSender (cleanSenderName s) = true <;>
                simp [hcur, hx, hnext, hs]
            | some nq =>
              obtain ⟨nd, nt, ns, nx⟩ := nq
              by_cases hdl : dateLtOpt (parseDateTime now nd nt []) (parseDateTime now d t []) = true
              · simp [hcur, hx, hnext, hdl]
              · by_cases hs : isSystemSender (cleanSenderName s) = true <;>
                  simp [hcur, hx, hnext, hdl, hs]
          · by_cases hs : isSystemSender (cleanSenderName s) = true <;> simp [hcur, hx, hs]
      | some lastTs =>
        cases hcur : st.currentMessage with
        | none =>
          by_cases hs : isSystemSender (cleanSenderName s) = true <;> simp [hcur, hs]
        | some cur =>
          by_cases hm : (dateLtOpt (parseDateTime now d t []) (some lastTs) = true ∧
              (cur.rawText = [] ∨ jsTrim cur.rawText = []))
          · simp [hcur, hm]
          · by_cases hx : jsTrim x = []
            · cases hnext : matchGroups4 messagePattern (cleanText nextRawLine) with
              | none =>
                by_cases hs : isSystemSender (cleanSenderName s) = true <;>
                  simp [hcur, hm, hx, hnext, hs]
              | some nq =>
                obtain ⟨nd, nt, ns, nx⟩ := nq
                by_cases hdl : dateLtOpt (parseDateTime now nd nt []) (parseDateTime now d t []) = true
                · simp [hcur, hm, hx, hnext, hdl]
                · by_cases hs : isSystemSender (cleanSenderName s) = true <;>
                    simp [hcur, hm, hx, hnext, hdl, hs]
            · by_cases hs : isSystemSender (cleanSenderName s) = true <;> simp [hcur, hm, hx, hs]

/-- The classifier never touches the id. -/
theorem finalizeMessage_id (m : Message) (mf : MediaMap) :
    (finalizeMessage m mf).id = m.id := by
  simp only [finalizeMessage]
  repeat' split
  all_goals rfl

/-- Appending a message whose id is the current length keeps ids dense. -/
theorem push_ids (l : List Message) (m : Message)
    (h : l.map (fun x => x.id) = List.range l.length) (hm : m.id = l.length) :
    (l ++ [m]).map (fun x => x.id) = List.range (l ++ [m]).length := by
  simp [List.range_succ, h, hm]

/-- One scanner step preserves the id discipline. -/
theorem scanStep_IdInv (pat sysPat : RE) (now : Int) (mf : MediaMap)
    (raw next : Str) (st : ScanState) (h : IdInv st) :
    IdInv (scanStep pat sysPat now mf raw next st) := by
  obtain ⟨h1, h2⟩ := h
  unfold scanStep scanHeaderOpen
  by_cases hline : cleanText raw = []
  · simpa [hline] using ⟨h1, h2⟩
  · simp only [if_neg hline]
    cases hmatch : matchGroups4 pat (cleanText raw) with
    | none =>
      cases hcur : st.currentMessage with
      | some cur =>
        by_cases hq : cur.hasQuote = true ∧ cur.rawText = [] <;>
          · simp [hq, IdInv, h1]
            exact h2 cur hcur
      | none =>
        cases hsys : matchGroups3 sysPat (cleanText raw) with
        | none => exact ⟨h1, h2⟩
        | some trip =>
          obtain ⟨d, t, x⟩ := trip
          refine ⟨?_, ?_⟩ <;> simp [hcur, h1]
    | some quad =>
      obtain ⟨d, t, s, x⟩ := quad
      dsimp only []
      have hpush : ∀ cur, st.currentMessage = some cur →
          (st.messages ++ [finalizeMessage cur mf]).map (fun m => m.id) =
            List.range (st.messages ++ [finalizeMessage cur mf]).length := by
        intro cur hcur
        exact push_ids _ _ h1 ((finalizeMessage_id cur mf).trans (h2 cur hcur))
      by_cases hquote :
          (match st.lastTimestamp, st.currentMessage with
           | some lastTs, some cur =>
             decide (dateLtOpt (parseDateTime now d t []) (some lastTs) = true ∧
               (cur.rawText = [] ∨ jsTrim cur.rawText = []))
           | _, _ => false) = true
      · rw [if_pos hquote]
        cases hcur : st.currentMessage with
        | none => exact ⟨h1, h2⟩
        | some cur =>
          refine ⟨h1, ?_⟩
          intro c hc
          simp only [Option.some.injEq] at hc
          exact hc ▸ h2 cur hcur
      · rw [if_neg hquote]
        by_cases hx : jsTrim x = []
        · by_cases hcs : st.currentMessage.isSome = true
          · obtain ⟨cur, hcur⟩ := Option.isSome_iff_exists.mp hcs
            cases hnext : matchGroups4 pat (cleanText next) with
            | none =>
              by_cases hs : isSystemSender (cleanSenderName s) = true <;>
                · simp [hx, hcur, hnext, hs, IdInv, openMessage, hpush cur hcur]
            | some nq =>
              obtain ⟨nd, nt, ns, nx⟩ := nq
              by_cases hdl :
                  dateLtOpt (parseDateTime now nd nt []) (parseDateTime now d t []) = true
              · simp [hx, hcur, hnext, hdl, IdInv, openMessage, hpush cur hcur]
              · by_cases hs : isSystemSender (cleanSenderName s) = true <;>
                  · simp [hx, hcur, hnext, hdl, hs, IdInv, openMessage, hpush cur hcur]
          · have hcur : st.currentMessage = none := by
              cases hc : st.currentMessage with
              | none => rfl
              | some c => rw [hc] at hcs; simp at hcs
            by_cases hs : isSystemSender (cleanSenderName s) = true <;>
              · simp [hx, hcur, hs, IdInv, openMessage, h1]
        · cases hcur : st.currentMessage with
          | none =>
            by_cases hs : isSystemSender (cleanSenderName s) = true <;>
              · simp [hx, hcur, hs, IdInv, openMessage, h1]
          | some cur =>
            by_cases hs : isSystemSender (cleanSenderName s) = true <;>
              · simp [hx, hcur, hs, IdInv, openMessage, hpush cur hcur]

/-- The scan preserves the id discipline along the whole input. -/
theorem scanLines_IdInv (pat sysPat : RE) (now : Int) (mf : MediaMap)
    (lines : List Str) (st : ScanState) (h : IdInv st) :
    IdInv (scanLines pat sysPat now mf lines st) := by
  induction lines generalizing st with
  | nil => exact h
  | cons raw rest ih =>
    exact ih _ (scanStep_IdInv pat sysPat now mf raw (rest.headD []) st h)

/-- Pre-cleanup, ids are the dense sequence `0 .. N-1`. -/
theorem parseRawMessages_ids (now : Int) (content : Str) (mf : MediaMap) :
    (parseRawMessages now content mf).messages.map (fun m => m.id) =
      List.range (parseRawMessages now content mf).messages.length := by
  unfold parseRawMessages
  have h := scanLines_IdInv (messagePatternFor (detectFormat content))
    (sysPatternFor (detectFormat content)) now mf
    (splitOnPred (fun c => c = '\n') (normalizeNewlines content))
    ⟨[], [], none, none⟩ ⟨rfl, by intro c hc; cases hc⟩
  obtain ⟨h1, h2⟩ := h
  cases hcur : (scanLines (messagePatternFor (detectFormat content))
      (sysPatternFor (detectFormat content)) now mf
      (splitOnPred (fun c => c = '\n') (normalizeNewlines content))
      ⟨[], [], none, none⟩).currentMessage with
  | none => simpa [hcur] using h1
  | some cur =>
    simp only [hcur]
    exact push_ids _ _ h1 ((finalizeMessage_id cur mf).trans (h2 cur hcur))

/-- C1, amended: before the cleanup filter the ids are exactly
`0 .. N-1` in order; the returned (post-cleanup, display-processed)
sequence keeps those ids, so they are strictly increasing — but, as the
counterexample shows, no longer position-matching. -/
theorem c1_ids_amended (now : Int) (content : Str) (mf : MediaMap) :
    ((parseRawMessages now content mf).messages.map (fun m => m.id) =
      List.range (parseRawMessages now content mf).messages.length) ∧
    List.Pairwise (· < ·) ((parse now content mf).messages.map (fun m => m.id)) := by
  refine ⟨parseRawMessages_ids now content mf, ?_⟩
  have hraw := parseRawMessages_ids now content mf
  have hpr : List.Pairwise (· < ·)
      ((parseRawMessages now content mf).messages.map (fun m => m.id)) := by
    rw [hraw]; exact List.pairwise_lt_range _
  have hp : List.Pairwise (· < ·)
      ((cleanupMessages (parseRawMessages now content mf).messages).map (fun m => m.id)) :=
    hpr.sublist ((List.filter_sublist _).map _)
  have hgoal : (parse now content mf).messages.map (fun m => m.id) =
      (cleanupMessages (parseRawMessages now content mf).messages).map (fun m => m.id) := by
    simp only [parse, List.map_map]
    rfl
  rw [hgoal]
  exact hp

/-- A line matched by neither the header nor the system grammar leaves a
state with no open message untouched. -/
theorem scanStep_noop (pat sysPat : RE) (now : Int) (mf : MediaMap)
    (raw next : Str) (st : ScanState)
    (hcur : st.currentMessage = none)
    (hm : matchGroups4 pat (cleanText raw) = none)
    (hs : matchGroups3 sysPat (cleanText raw) = none) :
    scanStep pat sysPat now mf raw next st = st := by
  unfold scanStep
  by_cases hline : cleanText raw = []
  · simp [hline]
  · simp [hline, hm, hcur, hs]

/-- When no line is recognized, the whole scan is the identity on a state
with no open message. -/
theorem scanLines_noop (pat sysPat : RE) (now : Int) (mf : MediaMap)
    (lines : List Str) (st : ScanState)
    (hcur : st.currentMessage = none)
    (h : ∀ raw ∈ lines, matchGroups4 pat (cleanText raw) = none ∧
      matchGroups3 sysPat (cleanText raw) = none) :
    scanLines pat sysPat now mf lines st = st := by
  induction lines with
  | nil => rfl
  | cons raw rest ih =>
    have hstep := scanStep_noop pat sysPat now mf raw (rest.headD []) st hcur
      (h raw (by simp)).1 (h raw (by simp)).2
    simp only [scanLines, hstep]
    exact ih (fun r hr => h r (List.mem_cons_of_mem _ hr))

/-- C8, amended: an input (empty or not) none of whose lines matches the
active header grammar or the system grammar yields — without any failure —
a `ChatData` with no messages, no participants and the placeholder date
range `'-'`, exactly the result the claim reserves for empty input. -/
theorem c8_amended (now : Int) (content : Str) (mediaFiles : MediaMap)
    (h : ∀ raw ∈ splitOnPred (fun c => c = '\n') (normalizeNewlines content),
      matchGroups4 (messagePatternFor (detectFormat content)) (cleanText raw) = none ∧
      matchGroups3 (sysPatternFor (detectFormat content)) (cleanText raw) = none) :
    (parse now content mediaFiles).messages = [] ∧
    (parse now content mediaFiles).participants = [] ∧
    (parse now content mediaFiles).stats.dateRange = "-".data := by
  have hraw : parseRawMessages now content mediaFiles = ⟨[], [], none, none⟩ := by
    have hscan := scanLines_noop (messagePatternFor (detectFormat content))
      (sysPatternFor (detectFormat content)) now mediaFiles
      (splitOnPred (fun c => c = '\n') (normalizeNewlines content))
      ⟨[], [], none, none⟩ rfl h
    simp only [parseRawMessages, hscan]
  refine ⟨?_, ?_, ?_⟩ <;>
    simp [parse, hraw, cleanupMessages, calculateStats, formatDateRange,
      sortAsc, sortByCountDesc]

/-- Witness for C8's amended theorem at the concrete non-empty input
`"hello world"`. -/
theorem c8_amended_witness :
    (parse 0 c8Input []).messages = [] ∧
    (parse 0 c8Input []).participants = [] ∧
    (parse 0 c8Input []).stats.dateRange = "-".data :=
  c8_amended 0 c8Input [] (by decide)

/-- C3, amended: only a date token that fails to split into three fields
makes the resolver return the current instant; a malformed *time* token
instead yields the parsed date at midnight — the same instant as parsing
the time `0:00` — never aborting. -/
theorem c3_amended (now : Int) (dateStr timeStr : Str) :
    ((splitOnPred isDateSep (cleanText dateStr)).length ≠ 3 →
      parseDateTime now dateStr timeStr [] = some now) ∧
    (reSearch timeRE (cleanText timeStr) = none →
      parseDateTime now dateStr timeStr [] =
        parseDateTime now dateStr ("0:00").data []) := by
  constructor
  · intro hlen
    unfold parseDateTime
    rcases hsplit : splitOnPred isDateSep (cleanText dateStr) with
      _ | ⟨a, _ | ⟨b, _ | ⟨c, _ | ⟨d, rest⟩⟩⟩⟩ <;>
      first
      | (simp [hsplit]; done)
      | (rw [hsplit] at hlen; simp at hlen)
  · intro htime
    unfold parseDateTime
    rcases hsplit : splitOnPred isDateSep (cleanText dateStr) with
      _ | ⟨a, _ | ⟨b, _ | ⟨c, _ | ⟨d, rest⟩⟩⟩⟩ <;>
      (simp only [hsplit, List.map_cons, List.map_nil, htime]; try rfl)

/-- C7: on a date token of three integer fields the resolver expands the
year (`+2000` below 50, `+1900` from 50 to 99, unchanged from 100) and
disambiguates day/month as the claim states: a first field above 12 is the
day, otherwise the second field is the day (both when it exceeds 12 and in
the month-first default), the first the month. -/
theorem c7_date_disambiguation (now : Int) (dateStr : Str) (p1 p2 p3 : Str)
    (v1 v2 v3 : Int)
    (hsplit : splitOnPred isDateSep (cleanText dateStr) = [p1, p2, p3])
    (h1 : jsParseInt p1 = some v1) (h2 : jsParseInt p2 = some v2)
    (h3 : jsParseInt p3 = some v3) :
    parseDateTime now dateStr ("10:00").data [] =
      some (jsMakeDate
        (if v3 < 100 then v3 + (if v3 < 50 then 2000 else 1900) else v3)
        ((if 12 < v1 then v2 else v1) - 1)
        (if 12 < v1 then v1 else v2)
        10 0 0) := by
  unfold parseDateTime
  simp only [hsplit, List.map_cons, List.map_nil, h1, h2, h3, jsLtC, jsGtC,
    jsAdd, Option.map_some', decide_eq_true_eq]
  split_ifs <;> rfl

/-- Witness for C3's amended theorem: a date that does not split into
three fields falls back to the current instant (`99`), and a malformed
time on a well-formed date behaves exactly as the time `0:00`. -/
theorem c3_amended_witness :
    parseDateTime 99 ("nope").data ("10:00").data [] = some 99 ∧
    parseDateTime 7 ("1/2/24").data ("zz").data [] =
      parseDateTime 7 ("1/2/24").data ("0:00").data [] :=
  ⟨(c3_amended 99 ("nope").data ("10:00").data).1 (by decide),
   (c3_amended 7 ("1/2/24").data ("zz").data).2 (by decide)⟩

/-- Witness for C7 at `25.12.99` (day-first because 25 > 12, year 1999),
`3/4/24` (month-first default) and `3/25/24` (second field is the day). -/
theorem c7_date_disambiguation_witness :
    parseDateTime 0 ("25.12.99").data ("10:00").data [] =
      some (jsMakeDate 1999 11 25 10 0 0) ∧
    parseDateTime 0 ("3/4/24").data ("10:00").data [] =
      some (jsMakeDate 2024 2 4 10 0 0) ∧
    parseDateTime 0 ("3/25/24").data ("10:00").data [] =
      some (jsMakeDate 2024 2 25 10 0 0) := by
  refine ⟨?_, ?_, ?_⟩
  · exact (c7_date_disambiguation 0 ("25.12.99").data ['2', '5'] ['1', '2'] ['9', '9']
      25 12 99 (by decide) (by decide) (by decide) (by decide)).trans (by decide)
  · exact (c7_date_disambiguation 0 ("3/4/24").data ['3'] ['4'] ['2', '4']
      3 4 24 (by decide) (by decide) (by decide) (by decide)).trans (by decide)
  · exact (c7_date_disambiguation 0 ("3/25/24").data ['3'] ['2', '5'] ['2', '4']
      3 25 24 (by decide) (by decide) (by decide) (by decide)).trans (by decide)

/-- C5: with a non-empty filename the resolver equals the four-strategy
first-success cascade of the specification, and a message whose raw text
carries an attachment marker comes out of the classifier with its payload
taken from the resolver, `hasData` false exactly when resolution failed,
and survives the cleanup filter — never an error. -/
theorem c5_media_resolver (filename : Str) (mediaFiles : MediaMap) (m : Message)
    (start n : Nat) (caps : Caps) :
    (filename ≠ [] →
      findMediaFile filename mediaFiles = findMediaFileSpec filename mediaFiles) ∧
    (reSearch attachRE m.rawText = some (start, n, caps) →
      ∃ md, (finalizeMessage m mediaFiles).media = some md ∧
        md.data = findMediaFile
          (jsTrim ((cleanText ((capGet caps 1).getD [])).filter
            (fun c => jsWordChar c ∨ c = '.' ∨ c = '-' ∨ c = '_'))) mediaFiles ∧
        md.hasData = md.data.isSome ∧
        cleanupMessages [finalizeMessage m mediaFiles] = [finalizeMessage m mediaFiles]) := by
  constructor
  · intro hfn
    by_cases hlen : mediaFiles.length = 0
    · have hnil : mediaFiles = [] := List.length_eq_zero.mp hlen
      subst hnil
      rcases h3 : reSearch coreFilenameRE filename with _ | ⟨a3, b3, c3⟩ <;>
        rcases h4 : reSearch numericRunRE filename with _ | ⟨a4, b4, c4⟩ <;>
          simp [findMediaFile, findMediaFileSpec, lookupAssoc, firstSome, h3, h4]
    · rcases h1 : lookupAssoc mediaFiles filename with _ | v <;>
      rcases h2 : mediaFiles.find? (fun kv => toLowerStr kv.1 = toLowerStr filename)
        with _ | kv <;>
      rcases h3 : reSearch coreFilenameRE filename with _ | ⟨a3, b3, c3⟩ <;>
      rcases h4 : reSearch numericRunRE filename with _ | ⟨a4, b4, c4⟩ <;>
        simp [findMediaFile, findMediaFileSpec, firstSome, hfn, hlen, h1, h2, h3, h4]
  · intro hsearch
    rcases hmd : (finalizeMessage m mediaFiles).media with _ | md
    · exfalso
      simp only [finalizeMessage, hsearch] at hmd
      exact Option.noConfusion hmd
    · have hmd' := hmd
      simp only [finalizeMessage, hsearch] at hmd'
      injection hmd' with h
      subst h
      refine ⟨_, rfl, rfl, ?_, ?_⟩
      · rfl
      · simp [cleanupMessages, hmd]

/-- Witness for C5 at the attachment-resolution example of spec §8: lookup
table `{IMG-001.jpg ↦ payload}` and message text `<attached: IMG-001.jpg>`. -/
theorem c5_media_resolver_witness :
    (findMediaFile ("IMG-001.jpg").data [(("IMG-001.jpg").data, ("payload").data)] =
      findMediaFileSpec ("IMG-001.jpg").data [(("IMG-001.jpg").data, ("payload").data)]) ∧
    (∃ md,
      (finalizeMessage (openMessage 0 (some 0) ("A").data ("<attached: IMG-001.jpg>").data)
        [(("IMG-001.jpg").data, ("payload").data)]).media = some md ∧
      md.data = findMediaFile
        (jsTrim ((cleanText ((capGet [(1, ("IMG-001.jpg").data)] 1).getD [])).filter
          (fun c => jsWordChar c ∨ c = '.' ∨ c = '-' ∨ c = '_')))
        [(("IMG-001.jpg").data, ("payload").data)] ∧
      md.hasData = md.data.isSome ∧
      cleanupMessages [finalizeMessage
          (openMessage 0 (some 0) ("A").data ("<attached: IMG-001.jpg>").data)
          [(("IMG-001.jpg").data, ("payload").data)]] =
        [finalizeMessage (openMessage 0 (some 0) ("A").data ("<attached: IMG-001.jpg>").data)
          [(("IMG-001.jpg").data, ("payload").data)]]) := by
  have h := c5_media_resolver ("IMG-001.jpg").data
    [(("IMG-001.jpg").data, ("payload").data)]
    (openMessage 0 (some 0) ("A").data ("<attached: IMG-001.jpg>").data)
    0 23 [(1, ("IMG-001.jpg").data)]
  exact ⟨h.1 (by decide), h.2 (by decide)⟩

/-! ### Lemmas for the normalizer's idempotence (C9) -/

theorem dropWhile_suffix' (p : Char → Bool) (l : Str) :
    ∃ t, t ++ l.dropWhile p = l := by
  induction l with
  | nil => exact ⟨[], rfl⟩
  | cons c rest ih =>
    by_cases hp : p c
    · obtain ⟨t, ht⟩ := ih
      exact ⟨c :: t, by simp [List.dropWhile_cons, hp, ht]⟩
    · exact ⟨[], by simp [List.dropWhile_cons, hp]⟩

theorem mem_dropWhile {c : Char} (p : Char → Bool) {l : Str}
    (h : c ∈ l.dropWhile p) : c ∈ l := by
  obtain ⟨t, ht⟩ := dropWhile_suffix' p l
  rw [← ht]
  exact List.mem_append_right t h

theorem mem_jsTrim {c : Char} {l : Str} (h : c ∈ jsTrim l) : c ∈ l := by
  unfold jsTrim at h
  rw [List.mem_reverse] at h
  have h1 := mem_dropWhile jsWhitespace h
  rw [List.mem_reverse] at h1
  exact mem_dropWhile jsWhitespace h1

theorem mem_collapse {c : Char} : ∀ {l : Str}, c ∈ collapseSpaces l → c ∈ l
  | [], h => by simp [collapseSpaces] at h
  | [a], h => by simpa [collapseSpaces] using h
  | a :: b :: t, h => by
    by_cases hc : a = ' ' ∧ b = ' '
    · rw [collapseSpaces, if_pos hc] at h
      exact List.mem_cons_of_mem a (mem_collapse h)
    · rw [collapseSpaces, if_neg hc] at h
      rcases List.mem_cons.mp h with h' | h'
      · exact h' ▸ List.mem_cons_self a _
      · exact List.mem_cons_of_mem a (mem_collapse h')

theorem dropWhile_dropWhile (p : Char → Bool) (l : Str) :
    (l.dropWhile p).dropWhile p = l.dropWhile p := by
  induction l with
  | nil => rfl
  | cons c rest ih =>
    by_cases hp : p c
    · simpa [List.dropWhile_cons, hp] using ih
    · simp [List.dropWhile_cons, hp]

theorem dropWhile_head_false (p : Char → Bool) (l : Str) (c : Char) (t : Str)
    (h : l.dropWhile p = c :: t) : p c = false := by
  induction l with
  | nil => simp at h
  | cons a rest ih =>
    by_cases hp : p a
    · rw [List.dropWhile_cons, if_pos hp] at h
      exact ih h
    · rw [List.dropWhile_cons, if_neg hp] at h
      injection h with h1 _
      subst h1
      simpa using hp

theorem dropWhile_eq_self_of_head (p : Char → Bool) (l : Str)
    (h : ∀ c t, l = c :: t → p c = false) : l.dropWhile p = l := by
  cases l with
  | nil => rfl
  | cons c t => rw [List.dropWhile_cons, if_neg (by simp [h c t rfl])]

/-- The trim step is idempotent. -/
theorem jsTrim_idem (l : Str) : jsTrim (jsTrim l) = jsTrim l := by
  unfold jsTrim
  have hlead : ((((l.dropWhile jsWhitespace).reverse.dropWhile
      jsWhitespace).reverse).dropWhile jsWhitespace) =
      ((l.dropWhile jsWhitespace).reverse.dropWhile jsWhitespace).reverse := by
    apply dropWhile_eq_self_of_head
    intro c t hct
    obtain ⟨r, hr⟩ := dropWhile_suffix' jsWhitespace (l.dropWhile jsWhitespace).reverse
    have hx : (((l.dropWhile jsWhitespace).reverse.dropWhile
        jsWhitespace).reverse) ++ r.reverse = l.dropWhile jsWhitespace := by
      have := congrArg List.reverse hr
      simpa [List.reverse_append] using this
    have hxl : l.dropWhile jsWhitespace = c :: (t ++ r.reverse) := by
      rw [← hx, hct]; simp
    exact dropWhile_head_false jsWhitespace l c _ hxl
  rw [hlead, List.reverse_reverse, dropWhile_dropWhile]

theorem nds_iff_chain (l : Str) :
    nds l = true ↔ List.Chain' (fun a b => ¬ (a = ' ' ∧ b = ' ')) l := by
  induction l with
  | nil => simp [nds]
  | cons a rest ih =>
    cases rest with
    | nil => simp [nds]
    | cons b t =>
      by_cases hc : a = ' ' ∧ b = ' '
      · simp [nds, hc, List.chain'_cons]
      · simp [nds, hc, List.chain'_cons, ih]
        exact fun _ h1 h2 => hc ⟨h1, h2⟩

theorem nds_reverse {l : Str} (h : nds l = true) : nds l.reverse = true := by
  rw [nds_iff_chain, List.chain'_reverse]
  exact List.Chain'.imp (fun a b hab hba => hab ⟨hba.2, hba.1⟩)
    ((nds_iff_chain l).mp h)

theorem nds_tail {a : Char} {rest : Str} (h : nds (a :: rest) = true) :
    nds rest = true := by
  cases rest with
  | nil => rfl
  | cons b t =>
    by_cases hc : a = ' ' ∧ b = ' '
    · rw [nds, if_pos hc] at h
      exact absurd h (by simp)
    · rwa [nds, if_neg hc] at h

theorem nds_dropWhile (p : Char → Bool) {l : Str} (h : nds l = true) :
    nds (l.dropWhile p) = true := by
  induction l with
  | nil => rfl
  | cons a rest ih =>
    by_cases hp : p a
    · rw [List.dropWhile_cons, if_pos hp]
      exact ih (nds_tail h)
    · rwa [List.dropWhile_cons, if_neg hp]

theorem collapse_cons_head (b : Char) (t : Str) :
    ∃ t', collapseSpaces (b :: t) = b :: t' := by
  induction t generalizing b with
  | nil => exact ⟨[], rfl⟩
  | cons c r ih =>
    by_cases hc : b = ' ' ∧ c = ' '
    · obtain ⟨t', ht'⟩ := ih c
      refine ⟨t', ?_⟩
      rw [collapseSpaces, if_pos hc, ht', hc.1, hc.2]
    · exact ⟨collapseSpaces (c :: r), by rw [collapseSpaces, if_neg hc]⟩

theorem nds_collapse (l : Str) : nds (collapseSpaces l) = true := by
  induction l with
  | nil => rfl
  | cons a rest ih =>
    cases rest with
    | nil => rfl
    | cons b t =>
      by_cases hc : a = ' ' ∧ b = ' '
      · rwa [collapseSpaces, if_pos hc]
      · rw [collapseSpaces, if_neg hc]
        obtain ⟨t', ht'⟩ := collapse_cons_head b t
        rw [ht'] at ih ⊢
        rw [nds, if_neg hc]
        exact ih

theorem collapse_eq_self {l : Str} (h : nds l = true) : collapseSpaces l = l := by
  induction l with
  | nil => rfl
  | cons a rest ih =>
    cases rest with
    | nil => rfl
    | cons b t =>
      have hc : ¬ (a = ' ' ∧ b = ' ') := by
        intro hc
        rw [nds, if_pos hc] at h
        exact absurd h (by simp)
      rw [collapseSpaces, if_neg hc, ih (nds_tail h)]

theorem map_eq_self_of {f : Char → Char} {l : Str}
    (h : ∀ a ∈ l, f a = a) : l.map f = l := by
  induction l with
  | nil => rfl
  | cons a rest ih =>
    rw [List.map_cons, h a (List.mem_cons_self a rest),
      ih (fun x hx => h x (List.mem_cons_of_mem a hx))]

/-- C9: the Text Normalizer is idempotent — normalizing an
already-normalized line returns it unchanged — and empty or undefined
input yields the empty string, never an error. -/
theorem c9_normalizer_idempotent :
    (∀ l : Str, cleanText (cleanText l) = cleanText l) ∧
    cleanTextOpt none = [] ∧ cleanText ([] : Str) = [] := by
  refine ⟨?_, rfl, rfl⟩
  intro l
  by_cases hl : l = []
  · subst hl; rfl
  · have hcl : cleanText l =
        jsTrim (collapseSpaces
          ((((l.filter (fun c => ¬ isInvisibleMark c)).map
              (fun c => if isSpecialSpace c then ' ' else c)).filter
              (fun c => ¬ isBidiMark c)).filter (fun c => ¬ (c = '\r')))) := by
      rw [cleanText, if_neg hl]
    have hzchars : ∀ c ∈ (((l.filter (fun c => ¬ isInvisibleMark c)).map
        (fun c => if isSpecialSpace c then ' ' else c)).filter
        (fun c => ¬ isBidiMark c)).filter (fun c => ¬ (c = '\r')),
        isInvisibleMark c = false ∧ isSpecialSpace c = false ∧
        isBidiMark c = false ∧ ¬ (c = '\r') := by
      intro c hc
      have hc1 := List.mem_filter.mp hc
      have hc2 := List.mem_filter.mp hc1.1
      obtain ⟨a, ha, hfa⟩ := List.mem_map.mp hc2.1
      have ha' := List.mem_filter.mp ha
      have hinv : isInvisibleMark a = false := by
        have := ha'.2; simpa using this
      have hbid : isBidiMark c = false := by
        have := hc2.2; simpa using this
      have hcr : ¬ (c = '\r') := by
        have := hc1.2; simpa using this
      by_cases hs : isSpecialSpace a = true
      · rw [if_pos hs] at hfa
        subst hfa
        exact ⟨by decide, by decide, hbid, hcr⟩
      · rw [if_neg hs] at hfa
        subst hfa
        exact ⟨hinv, by simpa using hs, hbid, hcr⟩
    have hynds : nds (cleanText l) = true := by
      rw [hcl]
      unfold jsTrim
      exact nds_reverse (nds_dropWhile _ (nds_reverse (nds_dropWhile _ (nds_collapse _))))
    have hyc : ∀ c ∈ cleanText l, isInvisibleMark c = false ∧ isSpecialSpace c = false ∧
        isBidiMark c = false ∧ ¬ (c = '\r') := by
      intro c hc
      rw [hcl] at hc
      exact hzchars c (mem_collapse (mem_jsTrim hc))
    have hytrim : jsTrim (cleanText l) = cleanText l := by
      rw [hcl]
      exact jsTrim_idem _
    by_cases hy : cleanText l = []
    · rw [hy]; rfl
    · have hout : cleanText (cleanText l) =
          jsTrim (collapseSpaces
            (((((cleanText l).filter (fun c => ¬ isInvisibleMark c)).map
                (fun c => if isSpecialSpace c then ' ' else c)).filter
                (fun c => ¬ isBidiMark c)).filter (fun c => ¬ (c = '\r')))) := by
        conv_lhs => rw [cleanText]
        rw [if_neg hy]
      have e1 : (cleanText l).filter (fun c => ¬ isInvisibleMark c) = cleanText l :=
        List.filter_eq_self.mpr (fun a ha => by simp [(hyc a ha).1])
      have e2 : (cleanText l).map (fun c => if isSpecialSpace c then ' ' else c) =
          cleanText l :=
        map_eq_self_of (fun a ha => by rw [if_neg (by simp [(hyc a ha).2.1])])
      have e3 : (cleanText l).filter (fun c => ¬ isBidiMark c) = cleanText l :=
        List.filter_eq_self.mpr (fun a ha => by simp [(hyc a ha).2.2.1])
      have e4 : (cleanText l).filter (fun c => ¬ (c = '\r')) = cleanText l :=
        List.filter_eq_self.mpr (fun a ha => by simp [(hyc a ha).2.2.2])
      rw [hout, e1, e2, e3, e4, collapse_eq_self hynds, hytrim]

end WhatsAppParser
